import Mathlib

/-!
Shallow embedding, in Lean 4, of the retrieval-augmented query pipeline of
the vakeel.ai repository (src/models/rag_pipeline.py, src/models/llm_handler.py,
src/models/embeddings.py), together with theorems settling the claims about
chunking, reranking, confidence scoring, post-processing, embedding fallbacks,
the clear operation, and the orchestrator's error contract.

Python strings are modelled as Lean `String` / `List Char`; Python floats as
`ℚ` (the float values appearing in the relevant code paths are exact decimal
computations: `1 - distance`, `min`, `round(_, 2)`); Python `None` as
`Option.none`; code that may raise as `Except Unit` or as explicit failure
flags on the model oracles (the neural models themselves are opaque
collaborators, modelled as score/encode oracles plus a failure flag).
-/

namespace Vakeel

/-! ### Pythonic string primitives

Faithful models of the Python string operations the pipeline uses:
`str.strip()`, `str.split()` (whitespace runs, empties dropped),
`str.split(sep)` (empties kept), `str.replace(old, new)` (all occurrences,
leftmost, non-overlapping). -/

/-- Model of Python `str.strip()` on a character list: drop whitespace from
both ends. -/
def pyStripChars (l : List Char) : List Char :=
  ((l.dropWhile Char.isWhitespace).reverse.dropWhile Char.isWhitespace).reverse

/-- Model of Python `str.strip()`. -/
def pyStrip (s : String) : String :=
  ⟨pyStripChars s.data⟩

/-- Split a character list at every occurrence of `sep`, keeping empty
pieces: model of Python `str.split(sep)` for a one-character separator. -/
def splitOnChar (sep : Char) : List Char → List (List Char)
  | [] => [[]]
  | c :: cs =>
    if c = sep then [] :: splitOnChar sep cs
    else
      match splitOnChar sep cs with
      | [] => [[c]]
      | p :: ps => (c :: p) :: ps

/-- Split a character list at every character satisfying `p`, keeping empty
pieces. -/
def splitOnPred (p : Char → Bool) : List Char → List (List Char)
  | [] => [[]]
  | c :: cs =>
    if p c then [] :: splitOnPred p cs
    else
      match splitOnPred p cs with
      | [] => [[c]]
      | q :: qs => (c :: q) :: qs

/-- Model of Python `text.split()` with no separator: split on whitespace
runs, dropping empty pieces. -/
def pyWords (s : String) : List String :=
  ((splitOnPred Char.isWhitespace s.data).filter (· ≠ [])).map (⟨·⟩)

/-- Worker for `replaceAllChars`: `skip` counts characters of a match still
to be consumed without re-matching. -/
def replaceGo (pat repl : List Char) (skip : Nat) : List Char → List Char
  | [] => []
  | c :: cs =>
    match skip with
    | s + 1 => replaceGo pat repl s cs
    | 0 =>
      if pat ≠ [] ∧ pat.isPrefixOf (c :: cs) then
        repl ++ replaceGo pat repl (pat.length - 1) cs
      else
        c :: replaceGo pat repl 0 cs

/-- Model of Python `str.replace(old, new)`: replace every occurrence of
`pat`, scanning left to right, matches non-overlapping. -/
def replaceAllChars (pat repl s : List Char) : List Char :=
  replaceGo pat repl 0 s

/-! ### Python `round(x, 2)`

Python `round` on floats rounds half to even; the model applies the same
rule to exact rationals. -/

/-- Round a rational to the nearest integer, half to even (the rule Python
`round` uses). -/
def roundHalfEven (x : ℚ) : ℤ :=
  let f := x.floor
  let r := x - f
  if r < 1 / 2 then f
  else if 1 / 2 < r then f + 1
  else if f % 2 = 0 then f else f + 1

/-- Model of Python `round(x, 2)`. -/
def pyRound2 (x : ℚ) : ℚ :=
  (roundHalfEven (100 * x) : ℚ) / 100

/-! ### Configuration (`RAGPipeline.__init__`) -/

/-- The pipeline configuration attributes set in `RAGPipeline.__init__`. -/
structure RAGConfig where
  top_k_retrieval : Nat := 10
  top_k_rerank : Nat := 5
  chunk_size : Nat := 1000
  chunk_overlap : Nat := 200
deriving DecidableEq

/-- The configuration as constructed by `RAGPipeline.__init__`. -/
def defaultCfg : RAGConfig := {}

/-! ### Chunker (`RAGPipeline._chunk_text`) -/

/-- One chunk as produced by `_chunk_text`: the joined text plus the
metadata fields the method computes itself (the caller-supplied metadata
dict is merged in unchanged and is not modelled per chunk). -/
structure Chunk where
  text : String
  chunk_id : Nat
  start_word : Nat
  end_word : Nat
  word_count : Nat
deriving DecidableEq

/-- Model of Python `range(0, n, step)` for `step > 0`: the start offsets
`0, step, 2*step, ...` below `n`. -/
def rangeBy (n step : Nat) : List Nat :=
  (List.range ((n + step - 1) / step)).map (· * step)

/-- Model of `RAGPipeline._chunk_text`: split on whitespace, then emit
overlapping windows of `chunk_size` words advancing by
`chunk_size - chunk_overlap`. -/
def chunkText (cfg : RAGConfig) (text : String) : List Chunk :=
  let words := pyWords text
  (rangeBy words.length (cfg.chunk_size - cfg.chunk_overlap)).enum.map fun ki =>
    let i := ki.2
    let cw := (words.drop i).take cfg.chunk_size
    { text := String.intercalate " " cw
      chunk_id := ki.1
      start_word := i
      end_word := min (i + cfg.chunk_size) words.length
      word_count := cw.length }

/-! ### Reranker (`RAGPipeline._rerank_results`)

The BGE cross-encoder is an opaque collaborator: it is modelled as a score
oracle giving, for each `(query, candidate)` pair, the sigmoid-squashed
relevance score (the sigmoid is strictly monotone, so ordering and ties of
the squashed scores coincide with those of the raw logits), plus a flag for
inference raising an exception. -/

/-- Oracle model of the loaded reranker: pairwise relevance scores after the
sigmoid, and whether scoring raises. -/
structure Reranker where
  score : String → String → ℚ
  fails : Bool := false

/-- The ascending comparison `np.argsort` sorts index lists by: smaller
score first, ties broken by smaller original index first (the stable
ascending order; `numpy` guarantees this tie order for stable sort kinds,
and it is the deterministic model used here). -/
def ascIdxLe (scores : List ℚ) (i j : Nat) : Prop :=
  scores.getD i 0 < scores.getD j 0 ∨ (scores.getD i 0 = scores.getD j 0 ∧ i ≤ j)

instance (scores : List ℚ) : DecidableRel (ascIdxLe scores) := fun _ _ => by
  unfold ascIdxLe; infer_instance

instance (scores : List ℚ) : IsTotal Nat (ascIdxLe scores) := by
  constructor
  intro a b
  rcases lt_trichotomy (scores.getD a 0) (scores.getD b 0) with h | h | h
  · exact Or.inl (Or.inl h)
  · rcases Nat.le_total a b with hab | hab
    · exact Or.inl (Or.inr ⟨h, hab⟩)
    · exact Or.inr (Or.inr ⟨h.symm, hab⟩)
  · exact Or.inr (Or.inl h)

instance (scores : List ℚ) : IsTrans Nat (ascIdxLe scores) := by
  constructor
  intro a b c hab hbc
  rcases hab with h1 | ⟨h1, h1i⟩ <;> rcases hbc with h2 | ⟨h2, h2i⟩
  · exact Or.inl (h1.trans h2)
  · exact Or.inl (h2 ▸ h1)
  · exact Or.inl (h1 ▸ h2)
  · exact Or.inr ⟨h1.trans h2, h1i.trans h2i⟩

/-- Model of `np.argsort(scores)`: the index list `[0, ..., n-1]` sorted
ascending by score (stable). -/
def npArgsort (scores : List ℚ) : List Nat :=
  List.insertionSort (ascIdxLe scores) (List.range scores.length)

/-- Model of `RAGPipeline._rerank_results(query, documents, scores)`. The
`_scores` argument mirrors the Python `scores` parameter (the retrieval
distances), which the model-scored path immediately shadows with the
reranker scores and therefore never reads.
`np.argsort(scores)[::-1]` is the reverse of the ascending argsort. -/
def rerankResults (model : Option Reranker) (query : String)
    (documents : List String) (_scores : List ℚ) : List Nat :=
  match model with
  | none => List.range documents.length
  | some m =>
    if documents.isEmpty then List.range documents.length
    else if m.fails then List.range documents.length
    else (npArgsort (documents.map (m.score query))).reverse

/-- Modelled from the spec (claim C4), for comparison with the code: sort
the candidate indices descending by score, ties broken by original
candidate order (a stable descending sort). -/
def descIdxLeSpec (scores : List ℚ) (i j : Nat) : Prop :=
  scores.getD j 0 < scores.getD i 0 ∨ (scores.getD i 0 = scores.getD j 0 ∧ i ≤ j)

instance (scores : List ℚ) : DecidableRel (descIdxLeSpec scores) := fun _ _ => by
  unfold descIdxLeSpec; infer_instance

/-- Modelled from the spec (claim C4): the stable descending argsort the
spec describes. -/
def specStableDescArgsort (scores : List ℚ) : List Nat :=
  List.insertionSort (descIdxLeSpec scores) (List.range scores.length)

/-! ### Embedder (`EmbeddingManager`, src/models/embeddings.py)

The sentence-transformer is an opaque collaborator, modelled as an encoding
oracle `String → List ℚ` plus a flag for `model.encode` raising. -/

/-- Oracle model of the loaded embedding model. -/
structure EmbeddingModel where
  encode : String → List ℚ
  fails : Bool := false

/-- Model of `EmbeddingManager.embed_texts`. Batching in groups of 32 and
concatenating is extensionally the single `map` used here; the list
comprehension keeps `str(text).strip()` for the texts that are truthy and
strip to something non-empty. A raise from `model.encode` propagates
(`Except.error`). -/
def embedTexts (m : EmbeddingModel) (texts : List String) :
    Except Unit (List (List ℚ)) :=
  if texts.isEmpty then .ok []
  else
    let cleaned := texts.filterMap fun t =>
      if t ≠ "" ∧ pyStrip t ≠ "" then some (pyStrip t) else none
    if cleaned.isEmpty then .ok []
    else if m.fails then .error ()
    else .ok (cleaned.map m.encode)

/-- Model of `EmbeddingManager.embed_text`: `embeddings[0] if embeddings
else []`, with any raise from `embed_texts` propagating. -/
def embedText (m : EmbeddingModel) (t : String) : Except Unit (List ℚ) :=
  match embedTexts m [t] with
  | .error e => .error e
  | .ok es => .ok (es.headD [])

/-- Sum of squares of a vector; it is zero exactly when the norm
`np.linalg.norm` is zero. -/
def sumSq (v : List ℚ) : ℚ :=
  (v.map fun x => x * x).sum

/-- Outcome of `EmbeddingManager.calculate_similarity`, at branch
granularity: the float `0.0` returned on the guard/except paths, the
non-finite float (NaN) produced by the division when a norm is zero, or
the cosine value `dot(e1, e2) / (norm(e1) * norm(e2))` of the two recorded
embeddings (an irrational-valued float computation, recorded symbolically). -/
inductive SimResult where
  | zero
  | nan
  | cosine (e1 e2 : List ℚ)
deriving DecidableEq

/-- Model of `EmbeddingManager.calculate_similarity(text1, text2)`. A zero
denominator in `np.dot(e1, e2) / (np.linalg.norm(e1) * np.linalg.norm(e2))`
is a `0.0/0.0` float division in numpy (the dot product with a zero vector
is zero): it produces NaN with a runtime warning, not an exception, so the
`except` branch is not taken there. -/
def calculateSimilarity (m : EmbeddingModel) (t1 t2 : String) : SimResult :=
  match embedTexts m [t1, t2] with
  | .error _ => .zero
  | .ok es =>
    if es.length ≠ 2 then .zero
    else
      let e1 := es.headD []
      let e2 := es.getD 1 []
      if sumSq e1 * sumSq e2 = 0 then .nan
      else .cosine e1 e2

/-! ### Response post-processing (`LLMHandler._post_process_response`) -/

/-- The duplicate-collapsing loop of `_post_process_response`: each line is
stripped; a line is kept when it is non-empty and differs from the last
kept line (`prev_line`, initially the empty string). Blank lines are
dropped and do not reset `prev_line`. -/
def dedupLines : List (List Char) → List Char → List (List Char)
  | [], _ => []
  | l :: ls, prev =>
    let line := pyStripChars l
    if line ≠ [] ∧ line ≠ prev then line :: dedupLines ls line
    else dedupLines ls prev

/-- The cleaned line list `_post_process_response` computes before
rejoining: both `replace`/`strip` passes, then `split('\n')`, then the
duplicate-collapsing loop. -/
def cleanedLines (s : String) : List (List Char) :=
  dedupLines
    (splitOnChar '\n'
      (pyStripChars (replaceAllChars "Response:".data []
        (pyStripChars (replaceAllChars "Answer:".data [] s.data)))))
    []

/-- Model of `LLMHandler._post_process_response` on characters: remove all
occurrences of `"Answer:"` then `"Response:"` (stripping after each),
collapse lines, rejoin with blank lines, truncate to 2000 characters with a
`"..."` marker, and strip. -/
def postProcessChars (s : String) : List Char :=
  let joined := List.intercalate "\n\n".data (cleanedLines s)
  pyStripChars (if joined.length > 2000 then joined.take 2000 ++ "...".data else joined)

/-- Model of `LLMHandler._post_process_response`. -/
def postProcessResponse (s : String) : String :=
  ⟨postProcessChars s⟩

/-- Drop `pat` from the front of `l` when it is a leading occurrence;
otherwise leave `l` unchanged. Used only by the spec-side model of claim
C7. -/
def stripLeadingTag (pat l : List Char) : List Char :=
  if pat.isPrefixOf l then l.drop pat.length else l

/-- Collapse runs of consecutive equal elements, keeping the first of each
run; worker carrying the previously kept element. Used only by the
spec-side model of claim C7. -/
def collapseAdjGo {α : Type} [DecidableEq α] (prev : α) : List α → List α
  | [] => []
  | a :: rest =>
    if a = prev then collapseAdjGo prev rest else a :: collapseAdjGo a rest

/-- Collapse consecutive duplicate elements (exact equality). Used only by
the spec-side model of claim C7. -/
def collapseAdj {α : Type} [DecidableEq α] : List α → List α
  | [] => []
  | a :: rest => a :: collapseAdjGo a rest

/-- Modelled from the spec (claim C7), for comparison with the code: strip
a leading `"Answer:"`/`"Response:"` echo prefix only, collapse consecutive
duplicate lines by exact line-for-line equality, and hard-truncate to 2000
characters appending a `"..."` marker. -/
def specPostProcess (s : String) : String :=
  let r := stripLeadingTag "Response:".data (stripLeadingTag "Answer:".data s.data)
  let cleaned := collapseAdj (splitOnChar '\n' r)
  let joined := List.intercalate ['\n'] cleaned
  ⟨if joined.length > 2000 then joined.take 2000 ++ "...".data else joined⟩

/-! ### Retrieval results and confidence
(`RAGPipeline.retrieve_documents`, `RAGPipeline._calculate_confidence`) -/

/-- The metadata keys the query path reads, each possibly absent
(`metadata.get(key, default)`). -/
structure DocMetadata where
  title : Option String := none
  filename : Option String := none
  document_type : Option String := none
deriving DecidableEq

/-- One entry of the list `retrieve_documents` returns: chunk text,
metadata, similarity score `1.0 - distance`, and 1-based rank. -/
structure RetrievedDoc where
  text : String
  metadata : DocMetadata
  score : ℚ
  rank : Nat
deriving DecidableEq

/-- Model of the result-assembly loop of `retrieve_documents`: for the
first `top_k_rerank` reranked indices, build the retrieved-document
records, converting cosine distance to similarity as `1.0 - distance`. -/
def buildRetrievedDocs (documents : List String) (metadatas : List DocMetadata)
    (distances : List ℚ) (rerankedIndices : List Nat) (k : Nat) :
    List RetrievedDoc :=
  (rerankedIndices.take k).enum.map fun ji =>
    { text := documents.getD ji.2 ""
      metadata := metadatas.getD ji.2 {}
      score := 1 - distances.getD ji.2 0
      rank := ji.1 + 1 }

/-- Model of `RAGPipeline._calculate_confidence`: `0.0` with no retrieved
documents, otherwise the top document's score clamped above by `min(_, 1.0)`
and rounded to two decimals. There is no clamp below. -/
def calculateConfidence (docs : List RetrievedDoc) : ℚ :=
  if docs.isEmpty then 0
  else
    let top_score := match docs with
      | [] => 0
      | d :: _ => d.score
    pyRound2 (min top_score 1)

/-! ### Query orchestrator (`RAGPipeline.query`) -/

/-- One element of the `sources` list `query` builds per retrieved
document, with the `metadata.get` defaults from the code. -/
structure SourceRef where
  title : String
  filename : String
  document_type : String
  score : ℚ
  rank : Nat
deriving DecidableEq

/-- The dictionary `query` returns. `processing_time` is
`time.time() - start_time` (a measured wall-clock duration, carried here as
an abstract elapsed value). -/
structure QueryResult where
  answer : String
  sources : List SourceRef
  context_length : Nat
  retrieved_docs : Nat
  processing_time : ℚ
  confidence : ℚ
deriving DecidableEq

/-- The source record `query` builds from a retrieved document. -/
def mkSource (d : RetrievedDoc) : SourceRef :=
  { title := d.metadata.title.getD "Unknown"
    filename := d.metadata.filename.getD "Unknown"
    document_type := d.metadata.document_type.getD "unknown"
    score := d.score
    rank := d.rank }

/-- The context string `query` builds:
`"\n\n".join(context_parts) if context_parts else ""`. -/
def mkContext (docs : List RetrievedDoc) : String :=
  let parts := docs.map fun d =>
    "[Source: " ++ d.metadata.title.getD "Unknown" ++ "]\n" ++ d.text
  if parts.isEmpty then "" else String.intercalate "\n\n" parts

/-- The fixed apology answer of the `except` branch of `query`. -/
def apologyAnswer : String :=
  "I apologize, but I encountered an error while processing your question. Please try again."

/-- Model of `RAGPipeline.query(question, ...)`. The body's two fallible
steps are oracles: `retrieve` stands for the `retrieve_documents` call
(`Except.error` modelling any unexpected raise, e.g. an uninitialized
component), and `generate question context` for the
`llm_handler.generate_response` call. Any raise lands in the `except`
branch, which returns the fixed best-effort dictionary; both branches
report the measured elapsed time. -/
def ragQuery (retrieve : Except Unit (List RetrievedDoc))
    (generate : String → String → Except Unit String)
    (question : String) (elapsed : ℚ) : QueryResult :=
  match retrieve with
  | .error _ =>
    { answer := apologyAnswer
      sources := []
      context_length := 0
      retrieved_docs := 0
      processing_time := elapsed
      confidence := 0 }
  | .ok docs =>
    match generate question (mkContext docs) with
    | .error _ =>
      { answer := apologyAnswer
        sources := []
        context_length := 0
        retrieved_docs := 0
        processing_time := elapsed
        confidence := 0 }
    | .ok response =>
      { answer := response
        sources := docs.map mkSource
        context_length := (mkContext docs).length
        retrieved_docs := docs.length
        processing_time := elapsed
        confidence := calculateConfidence docs }

/-! ### Clear operation (`RAGPipeline.clear_user_documents`) -/

/-- One persisted record of the ChromaDB collection, with the metadata key
the clear operation filters on. -/
structure StoreRecord where
  id : String
  text : String
  document_type : String
deriving DecidableEq

/-- Model of `RAGPipeline.clear_user_documents`: fetch the records whose
`document_type` is `"user_uploaded"`; when there are any, delete them all.
The Python function has no `return` statement, so its value is `None` in
every branch (the removed count is only logged): the second component is
that returned value. -/
def clearUserDocuments (store : List StoreRecord) :
    List StoreRecord × Option Nat :=
  let results := store.filter fun r => r.document_type == "user_uploaded"
  if results.isEmpty then (store, none)
  else (store.filter fun r => r.document_type != "user_uploaded", none)

end Vakeel

namespace Vakeel

/-- The character sequence of `n` copies of the word `w` separated by single
spaces. -/
def wtextChars : Nat → List Char
  | 0 => []
  | 1 => ['w']
  | Nat.succ (Nat.succ n) => 'w' :: ' ' :: wtextChars (n + 1)

/-- A concrete 801-word text (801 copies of the word `w`, space separated). -/
def text801 : String :=
  ⟨wtextChars 801⟩

lemma splitOnPred_wtext :
    ∀ n, splitOnPred Char.isWhitespace (wtextChars (n + 1)) =
      List.replicate (n + 1) (['w'] : List Char) := by
  intro n
  induction n with
  | zero => rfl
  | succ k ih =>
    have h2 : wtextChars (k + 2) = 'w' :: ' ' :: wtextChars (k + 1) := rfl
    rw [h2]
    simp only [splitOnPred, ih]
    rfl

lemma pyWords_text801 : pyWords text801 = List.replicate 801 "w" := by
  have h := splitOnPred_wtext 800
  show ((splitOnPred Char.isWhitespace (wtextChars 801)).filter (· ≠ [])).map (⟨·⟩) =
    List.replicate 801 "w"
  rw [h]
  have hf : (List.replicate 801 (['w'] : List Char)).filter (· ≠ []) =
      List.replicate 801 ['w'] := by
    rw [List.filter_eq_self]
    intro a ha
    rw [List.eq_of_mem_replicate ha]
    decide
  rw [hf, List.map_replicate]

lemma chunkText_length (cfg : RAGConfig) (t : String) :
    (chunkText cfg t).length =
      ((pyWords t).length + (cfg.chunk_size - cfg.chunk_overlap) - 1) /
        (cfg.chunk_size - cfg.chunk_overlap) := by
  simp [chunkText, rangeBy]

lemma length_dropWhile_le {α : Type} (p : α → Bool) (l : List α) :
    (l.dropWhile p).length ≤ l.length := by
  induction l with
  | nil => simp [List.dropWhile]
  | cons a l ih =>
    rw [List.dropWhile]
    split
    · exact ih.trans (Nat.le_succ _)
    · exact Nat.le_refl _

lemma pyStripChars_length_le (l : List Char) :
    (pyStripChars l).length ≤ l.length := by
  unfold pyStripChars
  rw [List.length_reverse]
  refine (length_dropWhile_le _ _).trans ?_
  rw [List.length_reverse]
  exact length_dropWhile_le _ _

lemma pyStripChars_eq_nil (l : List Char) (h : l.all Char.isWhitespace = true) :
    pyStripChars l = [] := by
  unfold pyStripChars
  have h1 : l.dropWhile Char.isWhitespace = [] := by
    rw [List.dropWhile_eq_nil_iff]
    intro x hx
    exact List.all_eq_true.mp h x hx
  rw [h1]
  rfl

lemma dedupLines_ne_nil :
    ∀ (ls : List (List Char)) (prev : List Char), ∀ l ∈ dedupLines ls prev, l ≠ [] := by
  intro ls
  induction ls with
  | nil => intro prev l hl; simp [dedupLines] at hl
  | cons a as ih =>
    intro prev l hl
    rw [dedupLines] at hl
    split at hl
    · next hcond =>
      rcases List.mem_cons.mp hl with rfl | hl2
      · exact hcond.1
      · exact ih _ l hl2
    · exact ih _ l hl

lemma dedupLines_chain :
    ∀ (ls : List (List Char)) (prev : List Char),
      List.Chain (fun a b => a ≠ b) prev (dedupLines ls prev) := by
  intro ls
  induction ls with
  | nil => intro prev; exact List.Chain.nil
  | cons a as ih =>
    intro prev
    rw [dedupLines]
    split
    · next hcond => exact List.Chain.cons (Ne.symm hcond.2) (ih _)
    · exact ih _

end Vakeel

namespace Vakeel

/-! ## Claim theorems -/

/-- C1: the claim (and the code's own comment) says the confidence is the
top candidate's similarity score clamped to [0,1]; the code only applies
`min(_, 1.0)`, so a candidate at cosine distance 1.5 (score `-0.5`) yields
confidence `-0.5`, outside [0,1]. -/
theorem confidence_negative_escapes_clamp :
    calculateConfidence (buildRetrievedDocs ["d"] [{}] [(3 : ℚ)/2] [0] 5) = -(1/2) ∧
    calculateConfidence (buildRetrievedDocs ["d"] [{}] [(3 : ℚ)/2] [0] 5) < 0 := by
  with_unfolding_all decide

/-- C2: whenever the body of `query` fails at either fallible step, the
result is the fixed best-effort dictionary: apology answer, empty sources,
confidence 0.0, and the measured elapsed time. The Lean model is a total
function, mirroring that no exception escapes `query`. -/
theorem query_failure_contract (retrieve : Except Unit (List RetrievedDoc))
    (generate : String → String → Except Unit String) (q : String) (t : ℚ)
    (h : retrieve = .error () ∨
      ∃ docs, retrieve = .ok docs ∧ generate q (mkContext docs) = .error ()) :
    (ragQuery retrieve generate q t).answer = apologyAnswer ∧
    (ragQuery retrieve generate q t).sources = [] ∧
    (ragQuery retrieve generate q t).confidence = 0 ∧
    (ragQuery retrieve generate q t).processing_time = t := by
  rcases h with rfl | ⟨docs, rfl, hg⟩
  · exact ⟨rfl, rfl, rfl, rfl⟩
  · simp only [ragQuery]
    rw [hg]
    exact ⟨rfl, rfl, rfl, rfl⟩

/-- C2 witness: the contract at a concrete failing retrieval. -/
theorem query_failure_contract_witness :
    (ragQuery (.error ()) (fun _ _ => .ok "x") "q" 7).answer = apologyAnswer ∧
    (ragQuery (.error ()) (fun _ _ => .ok "x") "q" 7).sources = [] ∧
    (ragQuery (.error ()) (fun _ _ => .ok "x") "q" 7).confidence = 0 ∧
    (ragQuery (.error ()) (fun _ _ => .ok "x") "q" 7).processing_time = 7 :=
  query_failure_contract _ _ _ _ (Or.inl rfl)

/-- C3 counterexample: a text of 801 words — nonzero and strictly below the
default `chunk_size` of 1000 — produces two chunks, not one, because the
window starts advance by the stride 800. -/
theorem chunk_two_chunks_below_chunk_size :
    (pyWords text801).length = 801 ∧ (chunkText defaultCfg text801).length = 2 := by
  constructor
  · rw [pyWords_text801, List.length_replicate]
  · rw [chunkText_length, pyWords_text801, List.length_replicate]
    decide

/-- C3 (amended): exactly one chunk is produced when the whitespace-split
word count is nonzero and at most the stride
`chunk_size - chunk_overlap` (800 by default). -/
theorem chunk_single_when_at_most_stride (t : String)
    (h1 : 0 < (pyWords t).length)
    (h2 : (pyWords t).length ≤ defaultCfg.chunk_size - defaultCfg.chunk_overlap) :
    (chunkText defaultCfg t).length = 1 := by
  rw [chunkText_length]
  have hstep : defaultCfg.chunk_size - defaultCfg.chunk_overlap = 800 := rfl
  rw [hstep] at h2 ⊢
  have hlo : 1 ≤ ((pyWords t).length + 800 - 1) / 800 := by
    rw [Nat.le_div_iff_mul_le (by norm_num : 0 < 800)]
    omega
  have hhi : ((pyWords t).length + 800 - 1) / 800 < 2 := by
    rw [Nat.div_lt_iff_lt_mul (by norm_num : 0 < 800)]
    omega
  omega

/-- C3 witness: a three-word text satisfies the amended hypotheses and
yields one chunk. -/
theorem chunk_single_when_at_most_stride_witness :
    (0 < (pyWords "a b c").length ∧
      (pyWords "a b c").length ≤ defaultCfg.chunk_size - defaultCfg.chunk_overlap) ∧
    (chunkText defaultCfg "a b c").length = 1 :=
  ⟨⟨by decide, by decide⟩,
    chunk_single_when_at_most_stride "a b c" (by decide) (by decide)⟩

/-- C4 counterexample: on two candidates with equal scores the code returns
`[1, 0]` (reverse of the stable ascending argsort) while the spec's stable
descending sort — ties in original candidate order — gives `[0, 1]`. -/
theorem rerank_ties_not_stable :
    rerankResults (some ⟨fun _ _ => 1/2, false⟩) "q" ["a", "b"] [] = [1, 0] ∧
    specStableDescArgsort
      (["a", "b"].map ((⟨fun _ _ => 1/2, false⟩ : Reranker).score "q")) = [0, 1] ∧
    rerankResults (some ⟨fun _ _ => 1/2, false⟩) "q" ["a", "b"] [] ≠
      specStableDescArgsort
        (["a", "b"].map ((⟨fun _ _ => 1/2, false⟩ : Reranker).score "q")) := by
  with_unfolding_all decide

/-- C4 (amended): with the model available and scoring succeeding, the
output is the reverse of the stable ascending argsort of the
sigmoid-squashed scores: descending by score, with ties between equal
scores broken by the candidates' reverse original order. -/
theorem rerank_sorted_desc_reverse_ties (m : Reranker) (q : String)
    (docs : List String) (dists : List ℚ) (hf : m.fails = false) :
    rerankResults (some m) q docs dists = (npArgsort (docs.map (m.score q))).reverse ∧
    List.Pairwise (fun i j => ascIdxLe (docs.map (m.score q)) j i)
      (rerankResults (some m) q docs dists) := by
  have heq : rerankResults (some m) q docs dists =
      (npArgsort (docs.map (m.score q))).reverse := by
    cases docs with
    | nil => simp [rerankResults, npArgsort]
    | cons a l => simp [rerankResults, hf]
  refine ⟨heq, ?_⟩
  rw [heq, List.pairwise_reverse]
  exact List.sorted_insertionSort (ascIdxLe (docs.map (m.score q))) _

/-- C4 witness: the amended statement at a concrete reranker and candidate
pair. -/
theorem rerank_sorted_desc_reverse_ties_witness :
    rerankResults (some ⟨fun _ _ => 1, false⟩) "q" ["a", "b"] [] =
      (npArgsort (["a", "b"].map ((⟨fun _ _ => 1, false⟩ : Reranker).score "q"))).reverse ∧
    List.Pairwise
      (fun i j => ascIdxLe (["a", "b"].map ((⟨fun _ _ => 1, false⟩ : Reranker).score "q")) j i)
      (rerankResults (some ⟨fun _ _ => 1, false⟩) "q" ["a", "b"] []) :=
  rerank_sorted_desc_reverse_ties _ "q" ["a", "b"] [] rfl

/-- C5: if the reranker model is unavailable, or the candidate list is
empty, or scoring raises, `_rerank_results` returns the identity
permutation `[0, 1, ..., n-1]` (and, being total, does not raise). -/
theorem rerank_identity_fallback (model : Option Reranker) (q : String)
    (docs : List String) (dists : List ℚ)
    (h : model = none ∨ docs = [] ∨ ∀ m, model = some m → m.fails = true) :
    rerankResults model q docs dists = List.range docs.length := by
  rcases h with rfl | rfl | h
  · rfl
  · cases model with
    | none => rfl
    | some m => simp [rerankResults]
  · cases model with
    | none => rfl
    | some m =>
      have hf := h m rfl
      by_cases hd : docs.isEmpty
      · simp [rerankResults, hd]
      · simp [rerankResults, hd, hf]

/-- C5 witness: unavailable model, two candidates. -/
theorem rerank_identity_fallback_witness :
    rerankResults none "q" ["a", "b"] [] = List.range (["a", "b"] : List String).length :=
  rerank_identity_fallback none "q" ["a", "b"] [] (Or.inl rfl)

/-- C6 counterexample: on a store holding one user-uploaded record, the
clear operation removes it but returns `None`, not the removed count 1 the
claim requires. -/
theorem clear_returns_no_count :
    (clearUserDocuments [⟨"a", "t", "user_uploaded"⟩]).1 = [] ∧
    (clearUserDocuments [⟨"a", "t", "user_uploaded"⟩]).2 = none ∧
    (clearUserDocuments [⟨"a", "t", "user_uploaded"⟩]).2 ≠ some 1 := by
  decide

/-- C6 (amended): the clear operation removes exactly the records with
`document_type = "user_uploaded"` (a no-op when none match) and returns no
count — the Python function always returns `None`; the removed count is
only logged. -/
theorem clear_removes_matching_returns_none (store : List StoreRecord) :
    (clearUserDocuments store).1 =
      store.filter (fun r => r.document_type != "user_uploaded") ∧
    (clearUserDocuments store).2 = none := by
  unfold clearUserDocuments
  by_cases h : (store.filter fun r => r.document_type == "user_uploaded").isEmpty
  · have hnil : (store.filter fun r => r.document_type == "user_uploaded") = [] :=
      List.isEmpty_iff.mp h
    have hself : store.filter (fun r => r.document_type != "user_uploaded") = store := by
      rw [List.filter_eq_self]
      intro a ha
      have hna : ¬(a.document_type == "user_uploaded") = true := by
        intro hmem
        have hin : a ∈ (store.filter fun r => r.document_type == "user_uploaded") :=
          List.mem_filter.mpr ⟨ha, hmem⟩
        rw [hnil] at hin
        exact List.not_mem_nil a hin
      simpa [bne] using hna
    simp [h, hself]
  · simp [h]

/-- C7 counterexample: `str.replace` removes every occurrence, so the
mid-text `"Answer:"` of `"The Answer: 42"` (which has no leading echo
prefix) is deleted by the code, while the spec's pipeline — strip leading
prefixes only, collapse duplicate lines, truncate — leaves the text
unchanged. -/
theorem postProcess_strips_non_leading :
    postProcessResponse "The Answer: 42" = "The  42" ∧
    specPostProcess "The Answer: 42" = "The Answer: 42" ∧
    postProcessResponse "The Answer: 42" ≠ specPostProcess "The Answer: 42" := by
  decide

/-- C7 (amended): post-processing removes all occurrences of
`"Answer:"`/`"Response:"` (not only leading ones); the surviving lines are
non-empty and consecutive kept lines are pairwise distinct after per-line
trimming; and the final result is hard-truncated: at most 2003 characters
(2000 plus the `"..."` marker). -/
theorem postProcess_lines_and_truncation (s : String) :
    (∀ l ∈ cleanedLines s, l ≠ []) ∧
    List.Chain' (fun a b => a ≠ b) (cleanedLines s) ∧
    (postProcessResponse s).length ≤ 2003 := by
  refine ⟨dedupLines_ne_nil _ [], ?_, ?_⟩
  · have h : List.Chain (fun a b => a ≠ b) [] (cleanedLines s) :=
      dedupLines_chain _ []
    exact (show List.Chain' _ ([] :: cleanedLines s) from h).tail
  · show (postProcessChars s).length ≤ 2003
    unfold postProcessChars
    refine (pyStripChars_length_le _).trans ?_
    split
    · rw [List.length_append, List.length_take]
      have : ("...".data).length = 3 := rfl
      rw [this]
      omega
    · next hle => omega

/-- C7 witness: the amended invariants at a concrete response. -/
theorem postProcess_lines_and_truncation_witness :
    (∀ l ∈ cleanedLines "x", l ≠ []) ∧
    List.Chain' (fun a b => a ≠ b) (cleanedLines "x") ∧
    (postProcessResponse "x").length ≤ 2003 :=
  postProcess_lines_and_truncation "x"

end Vakeel

namespace Vakeel

/-- C8 counterexample: when the model returns zero vectors for both texts,
the division `np.dot / (norm * norm)` is a `0.0/0.0` float division —
NaN with a runtime warning, not the 0.0 the claim requires (the `except`
branch never fires, since numpy float division by zero does not raise). -/
theorem similarity_zero_vector_not_zero :
    calculateSimilarity ⟨fun _ => [0], false⟩ "a" "b" = SimResult.nan ∧
    SimResult.nan ≠ SimResult.zero := by
  with_unfolding_all decide

/-- C8 (amended): `calculate_similarity` returns 0.0 when fewer than two
embeddings come back — in particular when either input strips to the empty
string — or when the embedding model fails; when both embeddings exist, a
degenerate (zero-norm) embedding makes the division produce NaN rather
than 0.0, and otherwise the result is the cosine of the two embeddings. -/
theorem similarity_branches (m : EmbeddingModel) (t1 t2 : String) :
    ((pyStrip t1 = "" ∨ pyStrip t2 = "" ∨ m.fails = true) →
      calculateSimilarity m t1 t2 = SimResult.zero) ∧
    (∀ e1 e2, embedTexts m [t1, t2] = .ok [e1, e2] → sumSq e1 * sumSq e2 = 0 →
      calculateSimilarity m t1 t2 = SimResult.nan) ∧
    (∀ e1 e2, embedTexts m [t1, t2] = .ok [e1, e2] → sumSq e1 * sumSq e2 ≠ 0 →
      calculateSimilarity m t1 t2 = SimResult.cosine e1 e2) := by
  refine ⟨?_, ?_, ?_⟩
  · intro h
    rcases h with h | h | h
    · by_cases h2 : t2 ≠ "" ∧ pyStrip t2 ≠ ""
      · by_cases hf : m.fails
        · simp [calculateSimilarity, embedTexts, h, h2, hf]
        · simp [calculateSimilarity, embedTexts, h, h2, hf]
      · simp [calculateSimilarity, embedTexts, h, h2]
    · by_cases h1 : t1 ≠ "" ∧ pyStrip t1 ≠ ""
      · by_cases hf : m.fails
        · simp [calculateSimilarity, embedTexts, h, h1, hf]
        · simp [calculateSimilarity, embedTexts, h, h1, hf]
      · simp [calculateSimilarity, embedTexts, h, h1]
    · by_cases h1 : t1 ≠ "" ∧ pyStrip t1 ≠ ""
      · by_cases h2 : t2 ≠ "" ∧ pyStrip t2 ≠ ""
        · simp [calculateSimilarity, embedTexts, h, h1, h2]
        · simp [calculateSimilarity, embedTexts, h, h1, h2]
      · by_cases h2 : t2 ≠ "" ∧ pyStrip t2 ≠ ""
        · simp [calculateSimilarity, embedTexts, h, h1, h2]
        · simp [calculateSimilarity, embedTexts, h, h1, h2]
  · intro e1 e2 heq hz
    unfold calculateSimilarity
    rw [heq]
    simp [hz]
  · intro e1 e2 heq hz
    unfold calculateSimilarity
    rw [heq]
    simp [hz]

/-- C8 witness: the zero branch at a concrete failing model. -/
theorem similarity_branches_witness :
    calculateSimilarity ⟨fun _ => [1], true⟩ "a" "b" = SimResult.zero :=
  (similarity_branches ⟨fun _ => [1], true⟩ "a" "b").1 (Or.inr (Or.inr rfl))

/-- C9: in every branch — no model, empty candidates, scoring failure, or
the model-scored sort — `_rerank_results` returns a permutation of
`{0, ..., n-1}` for `n` the candidate count. -/
theorem rerank_returns_permutation (model : Option Reranker) (q : String)
    (docs : List String) (dists : List ℚ) :
    List.Perm (rerankResults model q docs dists) (List.range docs.length) := by
  cases model with
  | none => exact List.Perm.refl _
  | some m =>
    by_cases hd : docs.isEmpty
    · simp [rerankResults, hd]
    · by_cases hf : m.fails
      · simp [rerankResults, hd, hf]
      · simp only [rerankResults, hd, hf, Bool.false_eq_true, if_false]
        have h1 : List.Perm (npArgsort (docs.map (m.score q)))
            (List.range (docs.map (m.score q)).length) :=
          List.perm_insertionSort _ _
        rw [List.length_map] at h1
        exact (List.reverse_perm _).trans h1

/-- C10: a string that is empty or whitespace-only is filtered out by
`embed_texts` before encoding, so `embed_text` returns the empty list —
no error and no zero vector of the model's dimension. -/
theorem embedText_whitespace_empty (m : EmbeddingModel) (t : String)
    (h : t.data.all Char.isWhitespace = true) :
    embedText m t = .ok [] := by
  have hs : pyStrip t = "" := by
    show (⟨pyStripChars t.data⟩ : String) = ""
    rw [pyStripChars_eq_nil t.data h]
  unfold embedText embedTexts
  simp [hs]

/-- C10 witness: a single-space input. -/
theorem embedText_whitespace_empty_witness :
    (" ".data.all Char.isWhitespace = true) ∧
    embedText ⟨fun _ => [1], false⟩ " " = .ok [] :=
  ⟨by decide, embedText_whitespace_empty ⟨fun _ => [1], false⟩ " " (by decide)⟩

end Vakeel
